import Mathlib

/-!
Verification of the BIND 9 system-test harness slice: the DNSSEC badkey
scenarios (`bin/tests/system/dnssec/tests_badkey.py`), the flaky-test
retry policy (`bin/tests/system/serve-stale/tests_sh_serve_stale.py`),
the Sphinx `configblock` directive (`doc/ext/configblock.py`) and the
man-page list assembly (`doc/man/conf.py`).

The test driver files are in the repository; the `isctest` harness
library (query construction, transport, response checks, server
supervision, log watching) and the DNS servers under test are repository
components not shipped here, so those are modelled from the
specification, as marked on each definition.
-/

set_option autoImplicit false

namespace BadKey

/-- Response status codes: the fixed enumeration from the harness data
model (no-error, name-error/nxdomain, server-failure). -/
inductive Rcode where
  | noerror
  | nxdomain
  | servfail
deriving DecidableEq, Repr

/-- The checking-disabled flag bit (value of `dns.flags.CD`). -/
def CD : Nat := 16

/-- The authenticated-data flag bit (value of `dns.flags.AD`). -/
def AD : Nat := 32

/-- The recursion-desired flag bit (value of `dns.flags.RD`). -/
def RD : Nat := 256

/-- A DNS query: owner name, record type and flag bits. -/
structure Query where
  qname : String
  qtype : String
  flags : Nat
deriving DecidableEq, Repr

/-- A resource record in an answer section. -/
structure RR where
  name : String
  rtype : String
  rdata : String
deriving DecidableEq, Repr

/-- A parsed DNS response: status code, flag bits and answer records. -/
structure Response where
  rcode : Rcode
  flags : Nat
  answer : List RR
deriving DecidableEq, Repr

/-- Modelled from the spec: `isctest.query.create(name, type)` builds a
query with default flags (recursion desired, checking not disabled). -/
def create (qname qtype : String) : Query :=
  { qname := qname, qtype := qtype, flags := RD }

/-- Modelled from the spec: flag bits of a response; the checking-disabled
bit echoes the query, the authenticated-data bit is present exactly when
the resolver validated the answer. -/
def responseFlags (queryFlags : Nat) (validated : Bool) : Nat :=
  (if queryFlags &&& CD = 0 then 0 else CD) + (if validated then AD else 0)

/-- Modelled from the spec: `isctest.check.servfail` status check. -/
def servfailCheck (r : Response) : Bool :=
  r.rcode = Rcode.servfail

/-- Modelled from the spec: `isctest.check.noerror` status check. -/
def noerrorCheck (r : Response) : Bool :=
  r.rcode = Rcode.noerror

/-- Modelled from the spec: `isctest.check.nxdomain` status check. -/
def nxdomainCheck (r : Response) : Bool :=
  r.rcode = Rcode.nxdomain

/-- Modelled from the spec: `isctest.check.noadflag`, the
authenticated-data bit of the response is clear. -/
def noadflag (r : Response) : Bool :=
  r.flags &&& AD == 0

/-- Set-inclusion-both-ways equality of two answer record lists,
ignoring order and multiplicity. -/
def sameSet (xs ys : List RR) : Bool :=
  xs.all (fun x => decide (x ∈ ys)) && ys.all (fun y => decide (y ∈ xs))

/-- Modelled from the spec: `isctest.check.same_answer` compares two
responses' answer record sets for set-equality ignoring ordering. -/
def same_answer (r1 r2 : Response) : Bool :=
  sameSet r1.answer r2.answer

/-- Expected non-validation status for the query names exercised by the
badkey scenarios (from the test's parameter table: `q.example.` and
`q.insecure.example.` do not exist, the other names do). -/
def expectedRcode (qname : String) : Rcode :=
  if qname = "q.example." ∨ qname = "q.insecure.example." then Rcode.nxdomain
  else Rcode.noerror

/-- Modelled from the spec: the correctly configured validating resolver
(ns4, 10.53.0.4). With checking-disabled set it skips validation and
returns the expected status with no authenticated-data bit; otherwise it
validates. Answer content is supplied by the zone-data parameter. -/
def correctServer (zone : String → String → List RR) (q : Query) : Response :=
  { rcode := expectedRcode q.qname,
    flags := responseFlags q.flags (q.flags &&& CD == 0),
    answer := zone q.qname q.qtype }

/-- Modelled from the spec: whether the authenticated-data flag bit is
set in a response. -/
def adflag (r : Response) : Bool :=
  r.flags &&& AD != 0

/-- Modelled from the spec: the resolver with a misconfigured trust
anchor (ns5, 10.53.0.5). Validation fails, so a query without
checking-disabled gets server-failure; with checking-disabled set the
resolver skips validation and answers like an unvalidated exchange. -/
def misconfiguredTAServer (zone : String → String → List RR) (q : Query) : Response :=
  if q.flags &&& CD = 0 then
    { rcode := Rcode.servfail, flags := responseFlags q.flags false, answer := [] }
  else
    { rcode := expectedRcode q.qname,
      flags := responseFlags q.flags false,
      answer := zone q.qname q.qtype }

/-- Modelled from the spec: `watch_log_from_here` snapshots the current
end-of-file offset of the server's log (the log is a line-oriented,
append-only sequence; the cursor is the index past the last line). -/
def watch_log_from_here (log : List String) : Nat :=
  log.length

/-- Whether the first character list is an initial segment of the second. -/
def leadsWith : List Char → List Char → Bool
  | [], _ => true
  | _ :: _, [] => false
  | c :: cs, d :: ds => c == d && leadsWith cs ds

/-- Whether the first character list occurs contiguously inside the second. -/
def containsSub (pat : List Char) : List Char → Bool
  | [] => leadsWith pat []
  | d :: ds => leadsWith pat (d :: ds) || containsSub pat ds

/-- Modelled from the spec: substring match of a pattern against one log
line, the per-line check used by `wait_for_line`. -/
def lineMatches (pattern line : String) : Bool :=
  containsSub pattern.data line.data

/-- Modelled from the spec: `wait_for_line(cursor, pattern)` scans the
log starting at the cursor's offset and returns the first line matching
the pattern, or nothing when no line at or after the offset matches
(the timeout case). -/
def wait_for_line (log : List String) (cursor : Nat) (pattern : String) : Option String :=
  (log.drop cursor).find? (lineMatches pattern)

/-- Configuration identities the badkey scenarios drive ns5 through. -/
inductive Ns5Config where
  | badTrustAnchor
  | revokedKey
  | brokenKey
deriving DecidableEq, Repr

/-- Parameters rendered into `ns5/named.conf` by the scenarios. -/
structure Ns5Params where
  revoked_key : Bool := false
  broken_key : Bool := false
deriving DecidableEq, Repr

/-- Modelled from the spec: rendering `ns5/named.conf` with the given
parameters and reconfiguring ns5 moves it to the corresponding
configuration identity. -/
def ns5reconfigure (p : Ns5Params) : Ns5Config :=
  if p.revoked_key then Ns5Config.revokedKey
  else if p.broken_key then Ns5Config.brokenKey
  else Ns5Config.badTrustAnchor

/-- Modelled from the spec: ns5's response under each configuration
identity. A bad or broken trust anchor makes validation fail (so
checking-enabled queries get server-failure); after initialising with a
revoked key the resolver cannot answer at all and returns
server-failure. -/
def ns5serve (zone : String → String → List RR) (cfg : Ns5Config) (q : Query) : Response :=
  match cfg with
  | Ns5Config.badTrustAnchor => misconfiguredTAServer zone q
  | Ns5Config.brokenKey => misconfiguredTAServer zone q
  | Ns5Config.revokedKey =>
      { rcode := Rcode.servfail, flags := responseFlags q.flags false, answer := [] }

/-- The log line ns9 records when its forwarder answers SERVFAIL. -/
def forwarderLogLine : String :=
  "received packet from 10.53.0.5: status: SERVFAIL"

/-- Parameters rendered into `ns9/named.conf` by the scenarios. -/
structure Ns9Params where
  forward_badkey : Bool := false
deriving DecidableEq, Repr

/-- Modelled from the spec: one exchange with the forwarding resolver
ns9 (10.53.0.9). Under the `forward_badkey` configuration its forwarder
(ns5 with a broken anchor) answers SERVFAIL, which ns9 records in its
log before resolving and validating the answer itself, so the client
still gets no-error with the authenticated-data bit set. -/
def ns9exchange (zone : String → String → List RR) (p : Ns9Params) (q : Query)
    (log : List String) : Response × List String :=
  if p.forward_badkey then
    ({ rcode := Rcode.noerror, flags := responseFlags q.flags true,
       answer := zone q.qname q.qtype },
     log ++ [forwarderLogLine])
  else
    ({ rcode := Rcode.noerror, flags := responseFlags q.flags true,
       answer := zone q.qname q.qtype },
     log)

/-- The `test_revoked_init` scenario: render ns5's configuration with
the revoked-key parameter, reconfigure, then query `.` SOA over TCP. -/
def test_revoked_init (zone : String → String → List RR) : Response :=
  let cfg := ns5reconfigure { revoked_key := true }
  ns5serve zone cfg (create "." "SOA")

/-- The `test_broken_forwarding` scenario: reconfigure ns5 with a broken
key and ns9 to forward with a matching bad key; query ns5 directly for
`a.secure.example.` A, take a log cursor on ns9, then query ns9 for
`a.secure.example.` SOA. Returns (direct response, forwarded response,
cursor, final ns9 log). -/
def test_broken_forwarding (zone : String → String → List RR) (log0 : List String) :
    Response × Response × Nat × List String :=
  let cfg5 := ns5reconfigure { broken_key := true }
  let res1 := ns5serve zone cfg5 (create "a.secure.example." "A")
  let cursor := watch_log_from_here log0
  let out := ns9exchange zone { forward_badkey := true } (create "a.secure.example." "SOA") log0
  (res1, out.1, cursor, out.2)

/-- A piece of a configuration template: literal text or a named
substitution hole. -/
inductive Chunk where
  | lit (s : String)
  | hole (key : String)
deriving DecidableEq, Repr

/-- Value of a named parameter in a parameter mapping (empty when the
name is unbound). -/
def lookupParam : List (String × String) → String → String
  | [], _ => ""
  | (k, v) :: ps, key => if k = key then v else lookupParam ps key

/-- Modelled from the spec: `templates.render` substitutes the parameter
mapping into the template to produce the configuration text. -/
def render : List Chunk → List (String × String) → String
  | [], _ => ""
  | Chunk.lit s :: cs, ps => s ++ render cs ps
  | Chunk.hole k :: cs, ps => lookupParam ps k ++ render cs ps

/-- Modelled from the spec: the bounded re-run loop for a flaky-marked
scenario. `budget` runs remain, `done` have been performed; each attempt
is a full independent run (a function of its run index only). Stops at
the first passing run or when the budget is exhausted, and returns the
single overall outcome with the number of runs performed. -/
def flakyRuns (attempt : Nat → Bool) : Nat → Nat → Bool × Nat
  | 0, done => (false, done)
  | budget + 1, done =>
      if attempt done then (true, done + 1) else flakyRuns attempt budget (done + 1)

/-- Modelled from the spec: run a flaky-marked scenario with at most
`maxRuns` total runs (`max_runs=2` in the serve-stale test mark). -/
def runFlaky (maxRuns : Nat) (attempt : Nat → Bool) : Bool × Nat :=
  flakyRuns attempt maxRuns 0

end BadKey

namespace DocConf

/-- A docutils literal-block node carrying its text. -/
structure LiteralBlock where
  text : String
deriving DecidableEq, Repr

/-- `ConfigBlockDirective.run`: the target file under the misc path is
either absent (`none`) or present with its full text. A missing file
yields the placeholder text, an existing file its contents; exactly one
literal-block node is returned either way. -/
def configBlockRun (target : Option String) : List LiteralBlock :=
  [{ text := match target with
             | none => "\x7b\x7d"
             | some contents => contents }]

/-- The author string used by every man page entry. -/
def author : String := "Internet Systems Consortium"

/-- One man page entry: source document name, page name, description,
author and manual section, as in `doc/man/conf.py`. -/
structure ManPage where
  docname : String
  name : String
  description : String
  pageAuthor : String
  manSection : Nat
deriving DecidableEq, Repr

/-- The unconditional `man_pages` list of `doc/man/conf.py`. -/
def baseManPages : List ManPage :=
  [ { docname := "arpaname", name := "arpaname",
      description := "translate IP addresses to the corresponding ARPA names",
      pageAuthor := author, manSection := 1 },
    { docname := "ddns-confgen", name := "ddns-confgen",
      description := "ddns key generation tool", pageAuthor := author, manSection := 8 },
    { docname := "delv", name := "delv",
      description := "DNS lookup and validation utility", pageAuthor := author, manSection := 1 },
    { docname := "dig", name := "dig",
      description := "DNS lookup utility", pageAuthor := author, manSection := 1 },
    { docname := "dnssec-cds", name := "dnssec-cds",
      description := "change DS records for a child zone based on CDS/CDNSKEY",
      pageAuthor := author, manSection := 1 },
    { docname := "dnssec-dsfromkey", name := "dnssec-dsfromkey",
      description := "DNSSEC DS RR generation tool", pageAuthor := author, manSection := 1 },
    { docname := "dnssec-importkey", name := "dnssec-importkey",
      description := "import DNSKEY records from external systems so they can be managed",
      pageAuthor := author, manSection := 1 },
    { docname := "dnssec-keyfromlabel", name := "dnssec-keyfromlabel",
      description := "DNSSEC key generation tool", pageAuthor := author, manSection := 1 },
    { docname := "dnssec-keygen", name := "dnssec-keygen",
      description := "DNSSEC key generation tool", pageAuthor := author, manSection := 1 },
    { docname := "dnssec-ksr", name := "dnssec-ksr",
      description := "create signed key response (SKR) files for offline KSK setups",
      pageAuthor := author, manSection := 1 },
    { docname := "dnssec-revoke", name := "dnssec-revoke",
      description := "set the REVOKED bit on a DNSSEC key", pageAuthor := author, manSection := 1 },
    { docname := "dnssec-settime", name := "dnssec-settime",
      description := "set the key timing metadata for a DNSSEC key",
      pageAuthor := author, manSection := 1 },
    { docname := "dnssec-signzone", name := "dnssec-signzone",
      description := "DNSSEC zone signing tool", pageAuthor := author, manSection := 1 },
    { docname := "dnssec-verify", name := "dnssec-verify",
      description := "DNSSEC zone verification tool", pageAuthor := author, manSection := 1 },
    { docname := "filter-aaaa", name := "filter-aaaa",
      description := "filter AAAA in DNS responses when A is present",
      pageAuthor := author, manSection := 8 },
    { docname := "filter-a", name := "filter-a",
      description := "filter A in DNS responses when AAAA is present",
      pageAuthor := author, manSection := 8 },
    { docname := "host", name := "host",
      description := "DNS lookup utility", pageAuthor := author, manSection := 1 },
    { docname := "mdig", name := "mdig",
      description := "DNS pipelined lookup utility", pageAuthor := author, manSection := 1 },
    { docname := "named-checkconf", name := "named-checkconf",
      description := "named configuration file syntax checking tool",
      pageAuthor := author, manSection := 1 },
    { docname := "named-checkzone", name := "named-checkzone",
      description := "zone file validity checking or converting tool",
      pageAuthor := author, manSection := 1 },
    { docname := "named-compilezone", name := "named-compilezone",
      description := "zone file validity checking or converting tool",
      pageAuthor := author, manSection := 1 },
    { docname := "named-journalprint", name := "named-journalprint",
      description := "print zone journal in human-readable form",
      pageAuthor := author, manSection := 1 },
    { docname := "named-makejournal", name := "named-makejournal",
      description := "create a journal from zone files", pageAuthor := author, manSection := 1 },
    { docname := "named-rrchecker", name := "named-rrchecker",
      description := "syntax checker for individual DNS resource records",
      pageAuthor := author, manSection := 1 },
    { docname := "named.conf", name := "named.conf",
      description := "configuration file for **named**", pageAuthor := author, manSection := 5 },
    { docname := "named", name := "named",
      description := "Internet domain name server", pageAuthor := author, manSection := 8 },
    { docname := "nsec3hash", name := "nsec3hash",
      description := "generate NSEC3 hash", pageAuthor := author, manSection := 1 },
    { docname := "nslookup", name := "nslookup",
      description := "query Internet name servers interactively",
      pageAuthor := author, manSection := 1 },
    { docname := "nsupdate", name := "nsupdate",
      description := "dynamic DNS update utility", pageAuthor := author, manSection := 1 },
    { docname := "rndc-confgen", name := "rndc-confgen",
      description := "rndc key generation tool", pageAuthor := author, manSection := 8 },
    { docname := "rndc.conf", name := "rndc.conf",
      description := "rndc configuration file", pageAuthor := author, manSection := 5 },
    { docname := "rndc", name := "rndc",
      description := "name server control utility", pageAuthor := author, manSection := 8 },
    { docname := "tsig-keygen", name := "tsig-keygen",
      description := "TSIG key generation tool", pageAuthor := author, manSection := 8 } ]

/-- The optional dnstap-read man page entry. -/
def dnstapReadPage : ManPage :=
  { docname := "dnstap-read", name := "dnstap-read",
    description := "print dnstap data in human-readable form",
    pageAuthor := author, manSection := 1 }

/-- The optional named-nzd2nzf man page entry. -/
def nzd2nzfPage : ManPage :=
  { docname := "named-nzd2nzf", name := "named-nzd2nzf",
    description := "convert an NZD database to NZF text format",
    pageAuthor := author, manSection := 1 }

/-- The `bind_optional_pages` mapping of `doc/man/conf.py`, as an
association list in declaration order. -/
def bind_optional_pages : List (String × ManPage) :=
  [ ("dnstap-read", dnstapReadPage),
    ("named-nzd2nzf", nzd2nzfPage) ]

/-- Membership test of the optional-pages mapping (`in` on the dict). -/
def lookupPage : List (String × ManPage) → String → Option ManPage
  | [], _ => none
  | (k, v) :: ps, key => if k = key then some v else lookupPage ps key

/-- Removal of a key from the optional-pages mapping (`dict.pop`). -/
def removePage : List (String × ManPage) → String → List (String × ManPage)
  | [], _ => []
  | (k, v) :: ps, key => if k = key then ps else (k, v) :: removePage ps key

/-- The loop over the meson intro-targets: each target whose name is
still in the optional-pages mapping pops that entry and appends it to
the man-pages list. Returns (entries appended in order, entries left in
the mapping). -/
def processTargets : List String → List (String × ManPage) → List (String × ManPage) × List (String × ManPage)
  | [], rem => ([], rem)
  | t :: ts, rem =>
      match lookupPage rem t with
      | some page =>
          let r := processTargets ts (removePage rem t)
          ((t, page) :: r.1, r.2)
      | none => processTargets ts rem

/-- The final `man_pages` list: with `BIND_BUILD_ROOT` unset (`none`)
all optional pages are appended; with it set, the intro-targets list
decides which optional pages are appended. -/
def manPages (buildRoot : Option (List String)) : List ManPage :=
  match buildRoot with
  | none => baseManPages ++ bind_optional_pages.map Prod.snd
  | some targets => baseManPages ++ ((processTargets targets bind_optional_pages).1).map Prod.snd

/-- The optional pages left unbuilt, whose stale artifacts the
else-branch of `doc/man/conf.py` deletes; empty when `BIND_BUILD_ROOT`
is unset. -/
def cleanupPages (buildRoot : Option (List String)) : List ManPage :=
  match buildRoot with
  | none => []
  | some targets => ((processTargets targets bind_optional_pages).2).map Prod.snd

end DocConf

namespace BadKey

theorem sameSet_refl (xs : List RR) : sameSet xs xs = true := by
  simp [sameSet, List.all_eq_true]

/-- C2: a query for `example.` SOA over TCP to the misconfigured-trust-anchor
server, with the checking-disabled flag left unset (default flags from
`create`), returns status server-failure. -/
theorem misconfigured_ta_servfail (zone : String → String → List RR) :
    (misconfiguredTAServer zone (create "example." "SOA")).rcode = Rcode.servfail := by
  rw [misconfiguredTAServer, if_pos (by decide)]

/-- C1: every query with the checking-disabled flag set, sent to the
misconfigured-trust-anchor server, gets the expected non-validation
status, a clear authenticated-data flag, and an answer record set equal
(as a set) to that of the correctly configured server's response to the
same query. -/
theorem misconfigured_ta_with_cd (zone : String → String → List RR) (q : Query)
    (h : q.flags &&& CD ≠ 0) :
    (misconfiguredTAServer zone q).rcode = expectedRcode q.qname
    ∧ noadflag (misconfiguredTAServer zone q) = true
    ∧ noadflag (correctServer zone q) = true
    ∧ same_answer (misconfiguredTAServer zone q) (correctServer zone q) = true := by
  have hcd : ¬ (q.flags &&& CD = 0) := h
  have hflags : responseFlags q.flags false = CD := by
    rw [responseFlags, if_neg hcd]; rfl
  have hcd' : (q.flags &&& CD == 0) = false := by
    simpa using h
  refine ⟨?_, ?_, ?_, ?_⟩
  · rw [misconfiguredTAServer, if_neg hcd]
  · rw [noadflag, misconfiguredTAServer, if_neg hcd]
    show (responseFlags q.flags false &&& AD == 0) = true
    rw [hflags]; decide
  · rw [noadflag, correctServer]
    show (responseFlags q.flags (q.flags &&& CD == 0) &&& AD == 0) = true
    rw [hcd', hflags]; decide
  · rw [same_answer, misconfiguredTAServer, if_neg hcd, correctServer]
    exact sameSet_refl _

/-- Witness for C1 at the concrete query of the scenario, with the
checking-disabled bit set as the test does. -/
theorem misconfigured_ta_with_cd_witness :
    (misconfiguredTAServer (fun _ _ => []) { create "example." "SOA" with flags := RD ||| CD }).rcode
        = expectedRcode "example."
    ∧ noadflag (misconfiguredTAServer (fun _ _ => []) { create "example." "SOA" with flags := RD ||| CD }) = true
    ∧ noadflag (correctServer (fun _ _ => []) { create "example." "SOA" with flags := RD ||| CD }) = true
    ∧ same_answer (misconfiguredTAServer (fun _ _ => []) { create "example." "SOA" with flags := RD ||| CD })
        (correctServer (fun _ _ => []) { create "example." "SOA" with flags := RD ||| CD }) = true :=
  misconfigured_ta_with_cd (fun _ _ => []) _ (by decide)

theorem drop_length_append {α : Type} (l1 l2 : List α) :
    (l1 ++ l2).drop l1.length = l2 := by
  simp

/-- C4: after rendering ns5's configuration with the revoked-key
parameter and reconfiguring it, a query for owner name `.` and record
type SOA returns a response with status server-failure. -/
theorem revoked_init_servfail (zone : String → String → List RR) :
    (test_revoked_init zone).rcode = Rcode.servfail := rfl

/-- C3: in the broken-forwarding scenario, the direct `a.secure.example.`
A query to the resolver returns server-failure, the `a.secure.example.`
SOA query through the forwarder path returns no-error with the
authenticated-data flag set, and a line containing `status: SERVFAIL`
appears in the forwarder's log after the cursor taken before the
exchange. -/
theorem broken_forwarding (zone : String → String → List RR) (log0 : List String) :
    servfailCheck (test_broken_forwarding zone log0).1 = true
    ∧ noerrorCheck (test_broken_forwarding zone log0).2.1 = true
    ∧ adflag (test_broken_forwarding zone log0).2.1 = true
    ∧ wait_for_line (test_broken_forwarding zone log0).2.2.2
        (test_broken_forwarding zone log0).2.2.1 "status: SERVFAIL"
        = some forwarderLogLine := by
  refine ⟨?_, ?_, ?_, ?_⟩
  · show servfailCheck (misconfiguredTAServer zone (create "a.secure.example." "A")) = true
    rw [servfailCheck, misconfiguredTAServer, if_pos (by decide)]
    decide
  · rfl
  · show (responseFlags RD true &&& AD != 0) = true
    decide
  · show wait_for_line (log0 ++ [forwarderLogLine]) (watch_log_from_here log0)
        "status: SERVFAIL" = some forwarderLogLine
    rw [wait_for_line, watch_log_from_here, drop_length_append]
    decide

/-- C5: a pattern occurring only in log content written before the
cursor taken by `watch_log_from_here` is never reported by
`wait_for_line`, and any reported match is a line at or after the
cursor's offset. -/
theorem wait_for_line_no_false_positive (log0 newLines : List String) (pattern : String)
    (h : ∀ line ∈ newLines, lineMatches pattern line = false) :
    wait_for_line (log0 ++ newLines) (watch_log_from_here log0) pattern = none
    ∧ ∀ (log : List String) (c : Nat) (line : String),
        wait_for_line log c pattern = some line → line ∈ List.drop c log := by
  constructor
  · rw [wait_for_line, watch_log_from_here, drop_length_append, List.find?_eq_none]
    intro x hx
    simp [h x hx]
  · intro log c line hfind
    exact List.mem_of_find?_eq_some hfind

/-- Witness for C5: a log whose pre-cursor content contains the pattern
and whose post-cursor lines do not; no match is reported. -/
theorem wait_for_line_no_false_positive_witness :
    wait_for_line (["seen status: SERVFAIL earlier"] ++ ["all quiet now"])
      (watch_log_from_here ["seen status: SERVFAIL earlier"]) "status: SERVFAIL" = none :=
  (wait_for_line_no_false_positive ["seen status: SERVFAIL earlier"] ["all quiet now"]
    "status: SERVFAIL" (by decide)).1

/-- C6: the answer-set comparison is reflexive and symmetric, and
permuting one response's answer sequence does not change its result. -/
theorem same_answer_algebraic (r1 r2 : Response) (l : List RR) (h : r1.answer.Perm l) :
    same_answer r1 r1 = true
    ∧ same_answer r1 r2 = same_answer r2 r1
    ∧ same_answer { r1 with answer := l } r2 = same_answer r1 r2 := by
  refine ⟨sameSet_refl _, ?_, ?_⟩
  · rw [same_answer, same_answer, sameSet, sameSet, Bool.and_comm]
  · have hmem : ∀ x : RR, x ∈ l ↔ x ∈ r1.answer := fun x => (h.mem_iff).symm
    rw [same_answer, same_answer]
    show sameSet l r2.answer = sameSet r1.answer r2.answer
    rw [Bool.eq_iff_iff]
    simp only [sameSet, Bool.and_eq_true, List.all_eq_true, decide_eq_true_eq]
    constructor
    · rintro ⟨h1, h2⟩
      exact ⟨fun x hx => h1 x ((hmem x).mpr hx), fun y hy => (hmem _).mp (h2 y hy)⟩
    · rintro ⟨h1, h2⟩
      exact ⟨fun x hx => h1 x ((hmem x).mp hx), fun y hy => (hmem _).mpr (h2 y hy)⟩

/-- Witness for C6 at a concrete pair of responses and a concrete
permutation of the first answer sequence. -/
theorem same_answer_algebraic_witness :
    same_answer { rcode := Rcode.noerror, flags := 0,
                  answer := [{ name := "example.", rtype := "SOA", rdata := "s1" },
                             { name := "example.", rtype := "SOA", rdata := "s2" }] }
        { rcode := Rcode.noerror, flags := 0,
          answer := [{ name := "example.", rtype := "SOA", rdata := "s1" },
                     { name := "example.", rtype := "SOA", rdata := "s2" }] } = true
    ∧ same_answer { rcode := Rcode.noerror, flags := 0,
                    answer := [{ name := "example.", rtype := "SOA", rdata := "s1" },
                               { name := "example.", rtype := "SOA", rdata := "s2" }] }
        { rcode := Rcode.noerror, flags := 0, answer := [] }
        = same_answer { rcode := Rcode.noerror, flags := 0, answer := [] }
            { rcode := Rcode.noerror, flags := 0,
              answer := [{ name := "example.", rtype := "SOA", rdata := "s1" },
                         { name := "example.", rtype := "SOA", rdata := "s2" }] }
    ∧ same_answer { rcode := Rcode.noerror, flags := 0,
                    answer := [{ name := "example.", rtype := "SOA", rdata := "s2" },
                               { name := "example.", rtype := "SOA", rdata := "s1" }] }
        { rcode := Rcode.noerror, flags := 0, answer := [] }
        = same_answer { rcode := Rcode.noerror, flags := 0,
                        answer := [{ name := "example.", rtype := "SOA", rdata := "s1" },
                                   { name := "example.", rtype := "SOA", rdata := "s2" }] }
            { rcode := Rcode.noerror, flags := 0, answer := [] } :=
  same_answer_algebraic _ _ _ (List.Perm.swap _ _ _)

/-- C7: configuration rendering is deterministic; two calls with
identical template and parameter inputs produce identical output. -/
theorem render_deterministic (t1 t2 : List Chunk) (p1 p2 : List (String × String))
    (h1 : t1 = t2) (h2 : p1 = p2) :
    render t1 p1 = render t2 p2 := by
  rw [h1, h2]

/-- Witness for C7 at a concrete template and parameter mapping. -/
theorem render_deterministic_witness :
    render [Chunk.lit "options ", Chunk.hole "revoked_key"] [("revoked_key", "yes")]
      = render [Chunk.lit "options ", Chunk.hole "revoked_key"] [("revoked_key", "yes")] :=
  render_deterministic _ _ _ _ rfl rfl

theorem flakyRuns_le (a : Nat → Bool) (n : Nat) : ∀ k, (flakyRuns a n k).2 ≤ k + n := by
  induction n with
  | zero => intro k; simp [flakyRuns]
  | succ n ih =>
      intro k
      rw [flakyRuns]
      by_cases hh : a k = true
      · simp only [hh, if_true]
        omega
      · have hh' : a k = false := by simpa using hh
        rw [hh']
        simp
        have := ih (k + 1)
        omega

/-- C8: a flaky-marked scenario is re-executed a bounded number of
times: with the mark's `max_runs=2` at most two runs happen in total,
the single reported outcome is pass exactly when the first run passes or
the first fails and the second passes, and for every bound the run count
never exceeds it. -/
theorem flaky_bounded_rerun (attempt : Nat → Bool) :
    (runFlaky 2 attempt).2 ≤ 2
    ∧ ((runFlaky 2 attempt).1 = true
        ↔ (attempt 0 = true ∨ (attempt 0 = false ∧ attempt 1 = true)))
    ∧ ∀ (m : Nat) (a : Nat → Bool), (runFlaky m a).2 ≤ m := by
  refine ⟨?_, ?_, ?_⟩
  · simpa using flakyRuns_le attempt 2 0
  · cases h0 : attempt 0 <;> cases h1 : attempt 1 <;>
      simp [runFlaky, flakyRuns, h0, h1]
  · intro m a
    simpa using flakyRuns_le a m 0

end BadKey

namespace DocConf

/-- C9: the configblock directive's run operation returns exactly one
literal-block node and never fails on a missing file: an absent target
yields the two-character placeholder text, a present target its full
text. -/
theorem configBlock_run_total (target : Option String) :
    (configBlockRun target).length = 1
    ∧ (target = none →
        configBlockRun target = [{ text := "\x7b\x7d" }] ∧ ("\x7b\x7d").length = 2)
    ∧ (∀ contents, target = some contents →
        configBlockRun target = [{ text := contents }]) := by
  refine ⟨?_, ?_, ?_⟩
  · cases target <;> rfl
  · rintro rfl
    exact ⟨rfl, rfl⟩
  · rintro contents rfl
    rfl

/-- Witness for C9 at the missing-file input. -/
theorem configBlock_run_total_witness :
    (configBlockRun none).length = 1
    ∧ configBlockRun none = [{ text := "\x7b\x7d" }] ∧ ("\x7b\x7d").length = 2 :=
  ⟨(configBlock_run_total none).1, (configBlock_run_total none).2.1 rfl⟩

theorem lookupPage_mem {rem : List (String × ManPage)} {t : String} {p : ManPage}
    (h : lookupPage rem t = some p) : (t, p) ∈ rem := by
  induction rem with
  | nil => simp [lookupPage] at h
  | cons e ps ih =>
      obtain ⟨k, v⟩ := e
      rw [lookupPage] at h
      by_cases hk : k = t
      · rw [if_pos hk] at h
        cases h
        subst hk
        exact List.mem_cons_self _ _
      · rw [if_neg hk] at h
        exact List.mem_cons_of_mem _ (ih h)

theorem mem_lookupPage {rem : List (String × ManPage)} {t : String} {p : ManPage}
    (hmem : (t, p) ∈ rem) (hnd : (rem.map Prod.fst).Nodup) :
    lookupPage rem t = some p := by
  induction rem with
  | nil => simp at hmem
  | cons e ps ih =>
      obtain ⟨k, v⟩ := e
      rw [List.map_cons, List.nodup_cons] at hnd
      rw [lookupPage]
      rcases List.mem_cons.mp hmem with heq | htail
      · cases heq
        rw [if_pos rfl]
      · by_cases hk : k = t
        · subst hk
          exact absurd (List.mem_map_of_mem Prod.fst htail) hnd.1
        · rw [if_neg hk]
          exact ih htail hnd.2

theorem lookupPage_none {rem : List (String × ManPage)} {t : String} {p : ManPage}
    (h : lookupPage rem t = none) : (t, p) ∉ rem := by
  intro hmem
  induction rem with
  | nil => simp at hmem
  | cons e ps ih =>
      obtain ⟨k, v⟩ := e
      rw [lookupPage] at h
      by_cases hk : k = t
      · rw [if_pos hk] at h
        cases h
      · rw [if_neg hk] at h
        rcases List.mem_cons.mp hmem with heq | htail
        · cases heq
          exact hk rfl
        · exact ih h htail

theorem removePage_subset {rem : List (String × ManPage)} {t : String}
    {e : String × ManPage} (h : e ∈ removePage rem t) : e ∈ rem := by
  induction rem with
  | nil => simp [removePage] at h
  | cons f ps ih =>
      obtain ⟨k, v⟩ := f
      rw [removePage] at h
      by_cases hk : k = t
      · rw [if_pos hk] at h
        exact List.mem_cons_of_mem _ h
      · rw [if_neg hk] at h
        rcases List.mem_cons.mp h with heq | htail
        · exact heq ▸ List.mem_cons_self _ _
        · exact List.mem_cons_of_mem _ (ih htail)

theorem mem_removePage {rem : List (String × ManPage)} {t k : String} {p : ManPage}
    (hk : k ≠ t) : (k, p) ∈ removePage rem t ↔ (k, p) ∈ rem := by
  induction rem with
  | nil => simp [removePage]
  | cons f ps ih =>
      obtain ⟨k', v⟩ := f
      rw [removePage]
      by_cases hk' : k' = t
      · rw [if_pos hk']
        subst hk'
        constructor
        · exact fun h => List.mem_cons_of_mem _ h
        · intro h
          rcases List.mem_cons.mp h with heq | htail
          · cases heq
            exact absurd rfl hk
          · exact htail
      · rw [if_neg hk']
        simp only [List.mem_cons, ih]

theorem removePage_keys_nodup {rem : List (String × ManPage)} {t : String}
    (hnd : (rem.map Prod.fst).Nodup) : ((removePage rem t).map Prod.fst).Nodup := by
  induction rem with
  | nil => simp [removePage]
  | cons f ps ih =>
      obtain ⟨k, v⟩ := f
      rw [List.map_cons, List.nodup_cons] at hnd
      rw [removePage]
      by_cases hk : k = t
      · rw [if_pos hk]
        exact hnd.2
      · rw [if_neg hk, List.map_cons, List.nodup_cons]
        refine ⟨fun hx => hnd.1 ?_, ih hnd.2⟩
        rcases List.mem_map.mp hx with ⟨e, he, hfst⟩
        exact hfst ▸ List.mem_map_of_mem Prod.fst (removePage_subset he)

theorem not_mem_removePage_self {rem : List (String × ManPage)} {t : String} {p : ManPage}
    (hnd : (rem.map Prod.fst).Nodup) : (t, p) ∉ removePage rem t := by
  induction rem with
  | nil => simp [removePage]
  | cons f ps ih =>
      obtain ⟨k, v⟩ := f
      rw [List.map_cons, List.nodup_cons] at hnd
      rw [removePage]
      by_cases hk : k = t
      · rw [if_pos hk]
        subst hk
        intro hmem
        exact hnd.1 (by simpa using List.mem_map_of_mem Prod.fst hmem)
      · rw [if_neg hk]
        intro hmem
        rcases List.mem_cons.mp hmem with heq | htail
        · cases heq
          exact hk rfl
        · exact ih hnd.2 htail

theorem mem_added {ts : List String} {rem : List (String × ManPage)}
    {e : String × ManPage} (h : e ∈ (processTargets ts rem).1) :
    e ∈ rem ∧ e.1 ∈ ts := by
  induction ts generalizing rem with
  | nil => simp [processTargets] at h
  | cons t ts ih =>
      cases hl : lookupPage rem t with
      | none =>
          simp only [processTargets, hl] at h
          have := ih h
          exact ⟨this.1, List.mem_cons_of_mem _ this.2⟩
      | some page =>
          simp only [processTargets, hl] at h
          rcases List.mem_cons.mp h with heq | htail
          · subst heq
            exact ⟨lookupPage_mem hl, List.mem_cons_self _ _⟩
          · have := ih htail
            exact ⟨removePage_subset this.1, List.mem_cons_of_mem _ this.2⟩

theorem added_of_mem {ts : List String} {rem : List (String × ManPage)}
    {k : String} {p : ManPage} (hnd : (rem.map Prod.fst).Nodup)
    (hmem : (k, p) ∈ rem) (hts : k ∈ ts) :
    (k, p) ∈ (processTargets ts rem).1 := by
  induction ts generalizing rem with
  | nil => simp at hts
  | cons t ts ih =>
      by_cases hkt : k = t
      · subst hkt
        have hl : lookupPage rem k = some p := mem_lookupPage hmem hnd
        simp only [processTargets, hl]
        exact List.mem_cons_self _ _
      · have hts' : k ∈ ts := by
          rcases List.mem_cons.mp hts with heq | htail
          · exact absurd heq hkt
          · exact htail
        cases hl : lookupPage rem t with
        | none =>
            simp only [processTargets, hl]
            exact ih hnd hmem hts'
        | some page =>
            simp only [processTargets, hl]
            exact List.mem_cons_of_mem _
              (ih (removePage_keys_nodup hnd) ((mem_removePage hkt).mpr hmem) hts')

theorem mem_remaining {ts : List String} {rem : List (String × ManPage)}
    {k : String} {p : ManPage} (hnd : (rem.map Prod.fst).Nodup) :
    (k, p) ∈ (processTargets ts rem).2 ↔ ((k, p) ∈ rem ∧ k ∉ ts) := by
  induction ts generalizing rem with
  | nil => simp [processTargets]
  | cons t ts ih =>
      cases hl : lookupPage rem t with
      | none =>
          simp only [processTargets, hl]
          rw [ih hnd]
          constructor
          · rintro ⟨h1, h2⟩
            refine ⟨h1, fun hmem => ?_⟩
            rcases List.mem_cons.mp hmem with heq | htail
            · exact lookupPage_none hl (heq ▸ h1)
            · exact h2 htail
          · rintro ⟨h1, h2⟩
            exact ⟨h1, fun hk => h2 (List.mem_cons_of_mem _ hk)⟩
      | some page =>
          simp only [processTargets, hl]
          rw [ih (removePage_keys_nodup hnd)]
          by_cases hkt : k = t
          · subst hkt
            constructor
            · rintro ⟨h1, _⟩
              exact absurd h1 (not_mem_removePage_self hnd)
            · rintro ⟨_, h2⟩
              exact absurd (List.mem_cons_self _ _) h2
          · rw [mem_removePage hkt]
            constructor
            · rintro ⟨h1, h2⟩
              refine ⟨h1, fun hmem => ?_⟩
              rcases List.mem_cons.mp hmem with heq | htail
              · exact hkt heq
              · exact h2 htail
            · rintro ⟨h1, h2⟩
              exact ⟨h1, fun hk => h2 (List.mem_cons_of_mem _ hk)⟩

theorem added_keys_nodup {ts : List String} {rem : List (String × ManPage)}
    (hnd : (rem.map Prod.fst).Nodup) :
    (((processTargets ts rem).1).map Prod.fst).Nodup := by
  induction ts generalizing rem with
  | nil => simp [processTargets]
  | cons t ts ih =>
      cases hl : lookupPage rem t with
      | none =>
          simp only [processTargets, hl]
          exact ih hnd
      | some page =>
          simp only [processTargets, hl, List.map_cons, List.nodup_cons]
          refine ⟨fun hx => ?_, ih (removePage_keys_nodup hnd)⟩
          rcases List.mem_map.mp hx with ⟨e, he, hfst⟩
          have h2 := mem_added he
          have hmem : (e.1, e.2) ∈ removePage rem t := h2.1
          rw [hfst] at hmem
          exact not_mem_removePage_self hnd hmem

theorem count_le_one_of_keys_nodup (e : String × ManPage) :
    ∀ (l : List (String × ManPage)), (l.map Prod.fst).Nodup → List.count e l ≤ 1 := by
  intro l
  induction l with
  | nil => intro _; simp
  | cons f l' ih =>
      intro hnd
      rw [List.map_cons, List.nodup_cons] at hnd
      rw [List.count_cons]
      by_cases he : e = f
      · subst he
        have h0 : List.count e l' = 0 := by
          rw [List.count_eq_zero]
          intro hmem
          exact hnd.1 (List.mem_map_of_mem Prod.fst hmem)
        simp [h0]
      · have hne : (f == e) = false := by
          simp only [beq_eq_false_iff_ne, ne_eq]
          exact fun hq => he hq.symm
        rw [hne]
        simpa using ih hnd.2

theorem count_map_snd (n : String) (p : ManPage) (l : List (String × ManPage))
    (h : ∀ e ∈ l, e.2 = p → e = (n, p)) :
    List.count p (l.map Prod.snd) = List.count (n, p) l := by
  induction l with
  | nil => rfl
  | cons e l' ih =>
      rw [List.map_cons, List.count_cons, List.count_cons,
        ih (fun e' he' => h e' (List.mem_cons_of_mem _ he'))]
      by_cases hp : e.2 = p
      · have he : e = (n, p) := h e (List.mem_cons_self _ _) hp
        subst he
        simp
      · have hne : (e == (n, p)) = false := by
          simp only [beq_eq_false_iff_ne, ne_eq]
          intro hq
          exact hp (by rw [hq])
        have hps : (e.2 == p) = false := by
          simp only [beq_eq_false_iff_ne, ne_eq]
          exact hp
        rw [hne, hps]

theorem mem_map_snd (n : String) (p : ManPage) (l : List (String × ManPage))
    (h : ∀ e ∈ l, e.2 = p → e = (n, p)) :
    p ∈ l.map Prod.snd ↔ (n, p) ∈ l := by
  constructor
  · intro hp
    rcases List.mem_map.mp hp with ⟨e, he, hsnd⟩
    exact (h e he hsnd) ▸ he
  · intro hm
    simpa using List.mem_map_of_mem Prod.snd hm

theorem man_pages_optional_aux (targets : List String) (name : String) (page : ManPage)
    (hD : ∀ e ∈ bind_optional_pages, e.2 = page → e = (name, page))
    (hmemD : (name, page) ∈ bind_optional_pages)
    (hbase0 : List.count page baseManPages = 0)
    (hbaseNot : page ∉ baseManPages)
    (hnone : page ∈ manPages none)
    (hnonecount : List.count page (manPages none) ≤ 1) :
    page ∈ manPages none
    ∧ List.count page (manPages none) ≤ 1
    ∧ List.count page (manPages (some targets)) ≤ 1
    ∧ (page ∈ manPages (some targets) ↔ name ∈ targets)
    ∧ (page ∈ cleanupPages (some targets) ↔ name ∉ targets)
    ∧ ¬(page ∈ manPages (some targets) ∧ page ∈ cleanupPages (some targets)) := by
  have hnd : ((bind_optional_pages).map Prod.fst).Nodup := by decide
  have haddinj : ∀ e ∈ (processTargets targets bind_optional_pages).1,
      e.2 = page → e = (name, page) :=
    fun e he hp => hD e (mem_added he).1 hp
  have hreminj : ∀ e ∈ (processTargets targets bind_optional_pages).2,
      e.2 = page → e = (name, page) :=
    fun e he hp => hD e ((mem_remaining hnd).mp he).1 hp
  have hiff : page ∈ manPages (some targets) ↔ name ∈ targets := by
    simp only [manPages, List.mem_append]
    rw [mem_map_snd name page _ haddinj]
    constructor
    · rintro (hx | hx)
      · exact absurd hx hbaseNot
      · exact (mem_added hx).2
    · intro hts
      exact Or.inr (added_of_mem hnd hmemD hts)
  have hciff : page ∈ cleanupPages (some targets) ↔ name ∉ targets := by
    constructor
    · intro hc
      have hc' : (name, page) ∈ (processTargets targets bind_optional_pages).2 :=
        (mem_map_snd name page _ hreminj).mp (by simpa [cleanupPages] using hc)
      exact ((mem_remaining hnd).mp hc').2
    · intro hts
      have hc' : (name, page) ∈ (processTargets targets bind_optional_pages).2 :=
        (mem_remaining hnd).mpr ⟨hmemD, hts⟩
      simpa [cleanupPages] using (mem_map_snd name page _ hreminj).mpr hc'
  refine ⟨hnone, hnonecount, ?_, hiff, hciff, ?_⟩
  · simp only [manPages, List.count_append]
    rw [count_map_snd name page _ haddinj, hbase0]
    simpa using count_le_one_of_keys_nodup (name, page) _ (added_keys_nodup hnd)
  · rintro ⟨hm, hc⟩
    exact hciff.mp hc (hiff.mp hm)

/-- C10: each optional man page appears at most once; with
`BIND_BUILD_ROOT` unset every optional page is included; with it set, an
optional page is in `man_pages` exactly when a build target of the same
name appears in the intro-targets list, it is left for artifact cleanup
exactly when no such target appears, and it is never both appended to
`man_pages` and left for cleanup. -/
theorem man_pages_optional (targets : List String) (name : String) (page : ManPage)
    (h : (name, page) ∈ bind_optional_pages) :
    page ∈ manPages none
    ∧ List.count page (manPages none) ≤ 1
    ∧ List.count page (manPages (some targets)) ≤ 1
    ∧ (page ∈ manPages (some targets) ↔ name ∈ targets)
    ∧ (page ∈ cleanupPages (some targets) ↔ name ∉ targets)
    ∧ ¬(page ∈ manPages (some targets) ∧ page ∈ cleanupPages (some targets)) := by
  have h' : (name, page) = ("dnstap-read", dnstapReadPage)
      ∨ (name, page) = ("named-nzd2nzf", nzd2nzfPage) := by
    simpa [bind_optional_pages] using h
  rcases h' with h' | h' <;> rw [Prod.mk.injEq] at h' <;> obtain ⟨rfl, rfl⟩ := h' <;>
    exact man_pages_optional_aux _ _ _ (by decide) (by decide) (by decide) (by decide)
      (by decide) (by decide)

/-- Witness for C10: the dnstap-read optional page with a target list
that contains its build target. -/
theorem man_pages_optional_witness :
    dnstapReadPage ∈ manPages none
    ∧ List.count dnstapReadPage (manPages none) ≤ 1
    ∧ List.count dnstapReadPage (manPages (some ["dnstap-read"])) ≤ 1
    ∧ (dnstapReadPage ∈ manPages (some ["dnstap-read"]) ↔ "dnstap-read" ∈ ["dnstap-read"])
    ∧ (dnstapReadPage ∈ cleanupPages (some ["dnstap-read"]) ↔ "dnstap-read" ∉ ["dnstap-read"])
    ∧ ¬(dnstapReadPage ∈ manPages (some ["dnstap-read"])
        ∧ dnstapReadPage ∈ cleanupPages (some ["dnstap-read"])) :=
  man_pages_optional ["dnstap-read"] "dnstap-read" dnstapReadPage (by decide)

end DocConf
